import Mathlib

/-!
Verification of the RESP (Redis serialization protocol) encoder in
`src/redis/src/ser.rs`, with the wire-tag table from `src/redis/src/types.rs`
and the error type from `src/redis/src/error.rs`.

The serializer walks a serde value tree and appends wire tokens to a byte
buffer. We model the value tree as an inductive `Value`, the buffer content
as the `String` appended (Rust `write!` appends the UTF-8 bytes of the
formatted string), and the byte buffer itself as `utf8Str` of that string.
A `unwrap` panic (the non-UTF-8 path of `serialize_bytes`) is modelled as a
distinct outcome `SerResult.panicked`, separate from a returned `Error`.
-/

/- Wire tag table, from `types.rs` (`impl RedisType`). -/
namespace RedisType

def BOOLEAN : Char := '#'

def INTEGER : Char := ':'

def BIG_NUMBER : Char := '('

def DOUBLE : Char := ','

def SIMPLE_STRING : Char := '+'

def BULK_STRING : Char := '$'

def NULL : Char := '_'

def ARRAY : Char := '*'

def MAP : Char := '%'

def CRLF : String := "\r\n"

end RedisType

/-- UTF-8 encoding of one scalar value (Rust `char`), as its list of bytes. -/
def utf8Char (c : Char) : List Nat :=
  let n := c.toNat
  if n < 0x80 then [n]
  else if n < 0x800 then [0xC0 + n / 64, 0x80 + n % 64]
  else if n < 0x10000 then [0xE0 + n / 4096, 0x80 + n / 64 % 64, 0x80 + n % 64]
  else [0xF0 + n / 262144, 0x80 + n / 4096 % 64, 0x80 + n / 64 % 64, 0x80 + n % 64]

/-- UTF-8 encoding of a character sequence. -/
def utf8Chars : List Char → List Nat
  | [] => []
  | c :: cs => utf8Char c ++ utf8Chars cs

/-- The bytes a Rust `String` holds: the UTF-8 encoding of its characters.
`s.len()` in Rust is `(utf8Str s).length`. -/
def utf8Str (s : String) : List Nat :=
  utf8Chars s.data

/-- The error type of `error.rs`: an I/O error or a custom message. -/
inductive Error where
  | io (msg : String)
  | custom (msg : String)
deriving DecidableEq

/-- Outcome of a serialization call: the string appended to the buffer on
success, a returned `Error`, or a process abort (`unwrap` panic). -/
inductive SerResult where
  | ok (out : String)
  | err (e : Error)
  | panicked
deriving DecidableEq

/-- `true` exactly when the outcome is an `Error` value returned to the
caller (as opposed to success or a panic). -/
def SerResult.isErrReturn : SerResult → Bool
  | .err _ => true
  | _ => false

/-- Sequencing of two writes: the second runs only if the first succeeded
(Rust `?` propagation). -/
def SerResult.append : SerResult → SerResult → SerResult
  | .ok a, .ok b => .ok (a ++ b)
  | .ok _, .err e => .err e
  | .ok _, .panicked => .panicked
  | .err e, _ => .err e
  | .panicked, _ => .panicked

/-- `Serializer::write_integer`: tag `:`, decimal value, terminator. -/
def write_integer (value : Int) : String :=
  String.singleton RedisType.INTEGER ++ toString value ++ RedisType.CRLF

/-- `Serializer::write_big_number`: tag `(`, the displayed value, terminator. -/
def write_big_number (value : String) : String :=
  String.singleton RedisType.BIG_NUMBER ++ value ++ RedisType.CRLF

/-- `Serializer::write_boolean`: tag `#`, `t` or `f`, terminator. -/
def write_boolean (value : Bool) : String :=
  String.singleton RedisType.BOOLEAN ++ (if value then "t" else "f") ++ RedisType.CRLF

/-- `Serializer::write_simple_string`: tag `+`, the value verbatim, terminator. -/
def write_simple_string (value : String) : String :=
  String.singleton RedisType.SIMPLE_STRING ++ value ++ RedisType.CRLF

/-- `Serializer::write_bulk_string`: tag `$`, decimal byte length
(`value.len()` counts UTF-8 bytes), terminator, payload, terminator. -/
def write_bulk_string (value : String) : String :=
  String.singleton RedisType.BULK_STRING ++ toString (utf8Str value).length
    ++ RedisType.CRLF ++ value ++ RedisType.CRLF

/-- `Serializer::write_null`: tag `_`, terminator. -/
def write_null : String :=
  String.singleton RedisType.NULL ++ RedisType.CRLF

/-- `Serializer::write_array_header`: tag `*`, the count (0 when absent),
terminator. -/
def write_array_header (len : Option Nat) : String :=
  String.singleton RedisType.ARRAY ++ toString (len.getD 0) ++ RedisType.CRLF

/-- `Serializer::write_map_header`: tag `%`, the count (0 when absent),
terminator. -/
def write_map_header (len : Option Nat) : String :=
  String.singleton RedisType.MAP ++ toString (len.getD 0) ++ RedisType.CRLF

/-- The value of `v as i64` for an unsigned integer `v` (two's-complement
truncation to 64 bits). -/
def as_i64 (v : Nat) : Int :=
  if v % 2 ^ 64 < 2 ^ 63 then ((v % 2 ^ 64 : Nat) : Int)
  else ((v % 2 ^ 64 : Nat) : Int) - 2 ^ 64

/-- `serialize_bool`. -/
def serialize_bool (v : Bool) : String :=
  write_boolean v

/-- `serialize_i64` (and the sign-extending `i8`/`i16`/`i32` entry points,
whose `as i64` cast is the identity on the represented integer). -/
def serialize_i64 (v : Int) : String :=
  write_integer v

/-- `serialize_u8`: `write_integer(v as i64)`. -/
def serialize_u8 (v : Nat) : String :=
  write_integer (as_i64 v)

/-- `serialize_u16`: `write_integer(v as i64)`. -/
def serialize_u16 (v : Nat) : String :=
  write_integer (as_i64 v)

/-- `serialize_u32`: `write_big_number(v as i64)` — the cast result is then
formatted in decimal. -/
def serialize_u32 (v : Nat) : String :=
  write_big_number (toString (as_i64 v))

/-- `serialize_u64`: `write_big_number(v.to_string())`. -/
def serialize_u64 (v : Nat) : String :=
  write_big_number (Nat.repr v)

/-- `serialize_char`: carriage return and line feed go through
`write_bulk_string`, every other character through `write_simple_string`. -/
def serialize_char (v : Char) : String :=
  if v = '\r' ∨ v = '\n' then write_bulk_string (String.singleton v)
  else write_simple_string (String.singleton v)

/-- `serialize_str`. -/
def serialize_str (v : String) : String :=
  write_bulk_string v

/-- Decoder state for strict UTF-8 validation: expecting a leading byte, or
expecting `k` more continuation bytes (the next one restricted to
`[lo, hi]`) of a scalar whose high bits are accumulated in `acc`. -/
inductive Utf8State where
  | start
  | cont (acc k lo hi : Nat)

/-- One-byte-at-a-time UTF-8 validation and decoding, equivalent to the
checks of `std::str::from_utf8`: leading bytes `00..7F`, `C2..DF`,
`E0..EF`, `F0..F4`; continuation bytes `80..BF`, with the first one
restricted to exclude overlong forms (`E0 A0..`, `F0 90..`), surrogates
(`ED ..9F`) and values above `U+10FFFF` (`F4 ..8F`). -/
def utf8Run : Utf8State → List Nat → Option (List Char)
  | .start, [] => some []
  | .cont _ _ _ _, [] => none
  | .start, b :: t =>
    if b ≤ 0x7F then (utf8Run .start t).map (fun cs => Char.ofNat b :: cs)
    else if 0xC2 ≤ b ∧ b ≤ 0xDF then utf8Run (.cont (b - 0xC0) 1 0x80 0xBF) t
    else if 0xE0 ≤ b ∧ b ≤ 0xEF then
      utf8Run (.cont (b - 0xE0) 2 (if b = 0xE0 then 0xA0 else 0x80)
        (if b = 0xED then 0x9F else 0xBF)) t
    else if 0xF0 ≤ b ∧ b ≤ 0xF4 then
      utf8Run (.cont (b - 0xF0) 3 (if b = 0xF0 then 0x90 else 0x80)
        (if b = 0xF4 then 0x8F else 0xBF)) t
    else none
  | .cont acc 1 lo hi, b :: t =>
    if lo ≤ b ∧ b ≤ hi then
      (utf8Run .start t).map (fun cs => Char.ofNat (acc * 64 + (b - 0x80)) :: cs)
    else none
  | .cont acc (k + 2) lo hi, b :: t =>
    if lo ≤ b ∧ b ≤ hi then utf8Run (.cont (acc * 64 + (b - 0x80)) (k + 1) 0x80 0xBF) t
    else none
  | .cont _ 0 _ _, _ :: _ => none

/-- `std::str::from_utf8`: the characters of a byte slice when it is valid
UTF-8, and `none` (an `Err`) otherwise. -/
def utf8Decode? (l : List Nat) : Option (List Char) :=
  utf8Run .start l

/-- The serde value tree driving the serializer: one constructor per entry
point of `impl ser::Serializer` that the claims exercise. `seq` and `map`
carry the caller-declared (optional) count separately from the elements
actually supplied, mirroring the `serialize_seq(len)` / `serialize_element`
split of the serde session. -/
inductive Value where
  | bool (b : Bool)
  | i64 (n : Int)
  | u8 (n : Nat)
  | u16 (n : Nat)
  | u32 (n : Nat)
  | u64 (n : Nat)
  | char (c : Char)
  | str (s : String)
  | bytes (bs : List Nat)
  | opt (o : Option Value)
  | unit
  | unitStruct (name : String)
  | unitVariant (name variant : String)
  | seq (len : Option Nat) (elems : List Value)
  | tuple (elems : List Value)
  | map (len : Option Nat) (pairs : List (Value × Value))
  | struct (name : String) (fields : List (String × Value))
  | structVariant (name variant : String) (fields : List (String × Value))

mutual

/-- The serializer, one match arm per `ser::Serializer` method of `ser.rs`:
the string appended to the buffer, or the panic of `serialize_bytes` on
invalid UTF-8. -/
def encode : Value → SerResult
  | .bool b => .ok (serialize_bool b)
  | .i64 n => .ok (serialize_i64 n)
  | .u8 n => .ok (serialize_u8 n)
  | .u16 n => .ok (serialize_u16 n)
  | .u32 n => .ok (serialize_u32 n)
  | .u64 n => .ok (serialize_u64 n)
  | .char c => .ok (serialize_char c)
  | .str s => .ok (serialize_str s)
  | .bytes bs =>
    match utf8Decode? bs with
    | some cs => .ok (write_bulk_string (String.mk cs))
    | none => .panicked
  | .opt none => .ok write_null
  | .opt (some v) => encode v
  | .unit => .ok (write_array_header none)
  | .unitStruct _ => .ok (write_map_header (some 0))
  | .unitVariant _ variant => .ok (write_bulk_string variant)
  | .seq len elems => (SerResult.ok (write_array_header len)).append (encodeList elems)
  | .tuple elems =>
    (SerResult.ok (write_array_header (some elems.length))).append (encodeList elems)
  | .map len pairs => (SerResult.ok (write_map_header len)).append (encodePairs pairs)
  | .struct _ fields =>
    (SerResult.ok (write_map_header (some fields.length))).append (encodeFields fields)
  | .structVariant _ _ fields =>
    (SerResult.ok (write_map_header (some fields.length))).append (encodeVariantFields fields)

/-- `SerializeSeq` / `SerializeTuple` elements: each element recursively
serialized, outputs concatenated. -/
def encodeList : List Value → SerResult
  | [] => .ok ""
  | v :: vs => (encode v).append (encodeList vs)

/-- `SerializeMap` entries: key then value, recursively. -/
def encodePairs : List (Value × Value) → SerResult
  | [] => .ok ""
  | (k, v) :: ps => ((encode k).append (encode v)).append (encodePairs ps)

/-- `SerializeStruct::serialize_field`: the field name serialized as a
string (`key.serialize`, hence a bulk string), then the value. -/
def encodeFields : List (String × Value) → SerResult
  | [] => .ok ""
  | (k, v) :: fs => ((SerResult.ok (serialize_str k)).append (encode v)).append (encodeFields fs)

/-- `SerializeStructVariant::serialize_field`: `write_simple_string(key)`,
then the value. -/
def encodeVariantFields : List (String × Value) → SerResult
  | [] => .ok ""
  | (k, v) :: fs =>
    ((SerResult.ok (write_simple_string k)).append (encode v)).append (encodeVariantFields fs)

end

/-- The byte buffer `to_string` builds (the `Vec<u8>` sink), when
serialization succeeds: the UTF-8 bytes of everything written. -/
def serializeBuffer (v : Value) : Option (List Nat) :=
  match encode v with
  | .ok s => some (utf8Str s)
  | _ => none

/-- `to_string` of `ser.rs`: serialize into a fresh buffer, then
`String::from_utf8(buf).unwrap()`. -/
def to_string (v : Value) : Option String :=
  match serializeBuffer v with
  | some buf => (utf8Decode? buf).map String.mk
  | none => none

theorem utf8_decode_one (n : Nat) (rest : List Nat) (h2 : n < 0x80) :
    utf8Run .start (n :: rest) = (utf8Run .start rest).map (fun cs => Char.ofNat n :: cs) := by
  have c1 : n ≤ 0x7F := by omega
  simp only [utf8Run, if_pos c1]

theorem utf8_decode_two (n : Nat) (rest : List Nat) (h1 : 0x80 ≤ n) (h2 : n < 0x800) :
    utf8Run .start ((0xC0 + n / 64) :: (0x80 + n % 64) :: rest) =
      (utf8Run .start rest).map (fun cs => Char.ofNat n :: cs) := by
  have c1 : ¬(0xC0 + n / 64 ≤ 0x7F) := by omega
  have c2 : 0xC2 ≤ 0xC0 + n / 64 ∧ 0xC0 + n / 64 ≤ 0xDF := by omega
  have c3 : 0x80 ≤ 0x80 + n % 64 ∧ 0x80 + n % 64 ≤ 0xBF := by omega
  have harith : (0xC0 + n / 64 - 0xC0) * 64 + (0x80 + n % 64 - 0x80) = n := by omega
  simp only [utf8Run, if_neg c1, if_pos c2, if_pos c3, harith]

theorem utf8_decode_three (n : Nat) (rest : List Nat) (h1 : 0x800 ≤ n) (h2 : n < 0x10000)
    (hv : n < 0xD800 ∨ 0xDFFF < n) :
    utf8Run .start ((0xE0 + n / 4096) :: (0x80 + n / 64 % 64) :: (0x80 + n % 64) :: rest) =
      (utf8Run .start rest).map (fun cs => Char.ofNat n :: cs) := by
  have c1 : ¬(0xE0 + n / 4096 ≤ 0x7F) := by omega
  have c2 : ¬(0xC2 ≤ 0xE0 + n / 4096 ∧ 0xE0 + n / 4096 ≤ 0xDF) := by omega
  have c3 : 0xE0 ≤ 0xE0 + n / 4096 ∧ 0xE0 + n / 4096 ≤ 0xEF := by omega
  have c5 : 0x80 ≤ 0x80 + n % 64 ∧ 0x80 + n % 64 ≤ 0xBF := by omega
  have harith :
      ((0xE0 + n / 4096 - 0xE0) * 64 + (0x80 + n / 64 % 64 - 0x80)) * 64 + (0x80 + n % 64 - 0x80)
        = n := by omega
  simp only [utf8Run, if_neg c1, if_neg c2, if_pos c3]
  by_cases e0 : 0xE0 + n / 4096 = 0xE0
  · have ed : ¬(0xE0 + n / 4096 = 0xED) := by omega
    have c4 : 0xA0 ≤ 0x80 + n / 64 % 64 ∧ 0x80 + n / 64 % 64 ≤ 0xBF := by omega
    simp only [if_pos e0, if_neg ed, if_pos c4, if_pos c5, harith]
  · by_cases ed : 0xE0 + n / 4096 = 0xED
    · have c4 : 0x80 ≤ 0x80 + n / 64 % 64 ∧ 0x80 + n / 64 % 64 ≤ 0x9F := by omega
      simp only [if_neg e0, if_pos ed, if_pos c4, if_pos c5, harith]
    · have c4 : 0x80 ≤ 0x80 + n / 64 % 64 ∧ 0x80 + n / 64 % 64 ≤ 0xBF := by omega
      simp only [if_neg e0, if_neg ed, if_pos c4, if_pos c5, harith]

theorem utf8_decode_four (n : Nat) (rest : List Nat) (h1 : 0x10000 ≤ n) (h2 : n < 0x110000) :
    utf8Run .start
        ((0xF0 + n / 262144) :: (0x80 + n / 4096 % 64) :: (0x80 + n / 64 % 64)
          :: (0x80 + n % 64) :: rest) =
      (utf8Run .start rest).map (fun cs => Char.ofNat n :: cs) := by
  have c1 : ¬(0xF0 + n / 262144 ≤ 0x7F) := by omega
  have c2 : ¬(0xC2 ≤ 0xF0 + n / 262144 ∧ 0xF0 + n / 262144 ≤ 0xDF) := by omega
  have c3 : ¬(0xE0 ≤ 0xF0 + n / 262144 ∧ 0xF0 + n / 262144 ≤ 0xEF) := by omega
  have c4 : 0xF0 ≤ 0xF0 + n / 262144 ∧ 0xF0 + n / 262144 ≤ 0xF4 := by omega
  have c6 : 0x80 ≤ 0x80 + n / 64 % 64 ∧ 0x80 + n / 64 % 64 ≤ 0xBF := by omega
  have c7 : 0x80 ≤ 0x80 + n % 64 ∧ 0x80 + n % 64 ≤ 0xBF := by omega
  have harith :
      (((0xF0 + n / 262144 - 0xF0) * 64 + (0x80 + n / 4096 % 64 - 0x80)) * 64
          + (0x80 + n / 64 % 64 - 0x80)) * 64 + (0x80 + n % 64 - 0x80) = n := by omega
  simp only [utf8Run, if_neg c1, if_neg c2, if_neg c3, if_pos c4]
  by_cases f0 : 0xF0 + n / 262144 = 0xF0
  · have f4 : ¬(0xF0 + n / 262144 = 0xF4) := by omega
    have c5 : 0x90 ≤ 0x80 + n / 4096 % 64 ∧ 0x80 + n / 4096 % 64 ≤ 0xBF := by omega
    simp only [if_pos f0, if_neg f4, if_pos c5, if_pos c6, if_pos c7, harith]
  · by_cases f4 : 0xF0 + n / 262144 = 0xF4
    · have c5 : 0x80 ≤ 0x80 + n / 4096 % 64 ∧ 0x80 + n / 4096 % 64 ≤ 0x8F := by omega
      simp only [if_neg f0, if_pos f4, if_pos c5, if_pos c6, if_pos c7, harith]
    · have c5 : 0x80 ≤ 0x80 + n / 4096 % 64 ∧ 0x80 + n / 4096 % 64 ≤ 0xBF := by omega
      simp only [if_neg f0, if_neg f4, if_pos c5, if_pos c6, if_pos c7, harith]

theorem utf8Char_decode (c : Char) (rest : List Nat) :
    utf8Run .start (utf8Char c ++ rest) = (utf8Run .start rest).map (fun cs => c :: cs) := by
  have hv : c.toNat < 0xD800 ∨ (0xDFFF < c.toNat ∧ c.toNat < 0x110000) := c.valid
  have hofn : Char.ofNat c.toNat = c := Char.ofNat_toNat c
  rcases Nat.lt_or_ge c.toNat 0x80 with h1 | h1
  · have he : utf8Char c = [c.toNat] := by simp [utf8Char, h1]
    rw [he, List.cons_append, List.nil_append, utf8_decode_one c.toNat rest h1, hofn]
  rcases Nat.lt_or_ge c.toNat 0x800 with h2 | h2
  · have he : utf8Char c = [0xC0 + c.toNat / 64, 0x80 + c.toNat % 64] := by
      simp [utf8Char, h2, Nat.not_lt.2 h1]
    rw [he, List.cons_append, List.cons_append, List.nil_append,
      utf8_decode_two c.toNat rest h1 h2, hofn]
  rcases Nat.lt_or_ge c.toNat 0x10000 with h3 | h3
  · have he : utf8Char c
        = [0xE0 + c.toNat / 4096, 0x80 + c.toNat / 64 % 64, 0x80 + c.toNat % 64] := by
      simp [utf8Char, h3, Nat.not_lt.2 h1, Nat.not_lt.2 h2]
    have hv' : c.toNat < 0xD800 ∨ 0xDFFF < c.toNat := by omega
    rw [he, List.cons_append, List.cons_append, List.cons_append, List.nil_append,
      utf8_decode_three c.toNat rest h2 h3 hv', hofn]
  · have h4 : c.toNat < 0x110000 := by omega
    have he : utf8Char c = [0xF0 + c.toNat / 262144, 0x80 + c.toNat / 4096 % 64,
        0x80 + c.toNat / 64 % 64, 0x80 + c.toNat % 64] := by
      simp [utf8Char, Nat.not_lt.2 h1, Nat.not_lt.2 h2, Nat.not_lt.2 h3]
    rw [he, List.cons_append, List.cons_append, List.cons_append, List.cons_append,
      List.nil_append, utf8_decode_four c.toNat rest h3 h4, hofn]

theorem utf8Chars_decode (cs : List Char) : utf8Run .start (utf8Chars cs) = some cs := by
  induction cs with
  | nil => rfl
  | cons c cs ih => rw [utf8Chars, utf8Char_decode, ih]; rfl

theorem utf8Decode_utf8Str (s : String) : utf8Decode? (utf8Str s) = some s.data :=
  utf8Chars_decode s.data

/-- First character of an emitted token: its wire type tag. -/
def firstByte? (s : String) : Option Char :=
  s.data.head?

theorem firstByte_tag (c : Char) (s t : String) :
    firstByte? (String.singleton c ++ s ++ t) = some c := by
  cases s with
  | mk ds =>
    cases t with
    | mk dt => rfl

/-- C1 counterexample: `serialize_seq` with an absent count writes a header
announcing 0, yet the caller can still supply an element; the emitted count
(0) then differs from the number of element tokens written (1). -/
theorem seq_absent_count_counterexample :
    encode (Value.seq none [Value.bool true])
      = SerResult.ok (write_array_header none ++ "#t\r\n") ∧
    write_array_header none = "*0\r\n" ∧
    write_array_header (some [Value.bool true].length) = "*1\r\n" ∧
    ("*0\r\n" : String) ≠ "*1\r\n" := by
  decide

/-- C1 (amended): every composite header announces exactly the
caller-declared count (0 when the count is absent); hence the count equals
the number of element/pair groups written whenever the caller declares the
true length — as `serialize_tuple`, `serialize_struct` and
`serialize_struct_variant` always do — but an absent count still emits 0
even when elements follow. -/
theorem composite_header_count :
    (∀ (len : Option Nat) (elems : List Value) (body : String),
        encodeList elems = SerResult.ok body →
        encode (Value.seq len elems) = SerResult.ok (write_array_header len ++ body)) ∧
    (∀ (elems : List Value) (body : String),
        encodeList elems = SerResult.ok body →
        encode (Value.tuple elems)
          = SerResult.ok (write_array_header (some elems.length) ++ body)) ∧
    (∀ (len : Option Nat) (pairs : List (Value × Value)) (body : String),
        encodePairs pairs = SerResult.ok body →
        encode (Value.map len pairs) = SerResult.ok (write_map_header len ++ body)) ∧
    (∀ (name : String) (fields : List (String × Value)) (body : String),
        encodeFields fields = SerResult.ok body →
        encode (Value.struct name fields)
          = SerResult.ok (write_map_header (some fields.length) ++ body)) ∧
    (∀ (name variant : String) (fields : List (String × Value)) (body : String),
        encodeVariantFields fields = SerResult.ok body →
        encode (Value.structVariant name variant fields)
          = SerResult.ok (write_map_header (some fields.length) ++ body)) := by
  refine ⟨fun len elems body h => ?_, fun elems body h => ?_, fun len pairs body h => ?_,
    fun name fields body h => ?_, fun name variant fields body h => ?_⟩ <;>
    simp [encode, h, SerResult.append]

theorem composite_header_count_witness :
    encode (Value.seq (some 1) [Value.bool true])
      = SerResult.ok (write_array_header (some 1) ++ "#t\r\n") :=
  composite_header_count.1 (some 1) [Value.bool true] "#t\r\n" (by decide)

/-- C2: the bulk-string writer emits the `$` tag, the decimal byte length of
the payload (UTF-8 bytes, not characters), one terminator, the payload, and
exactly one final terminator; `"123456789"` encodes as
`$9\r\n123456789\r\n`, and a one-character two-byte payload gets length 2. -/
theorem bulk_string_byte_length :
    (∀ v : String, serialize_str v =
        String.singleton RedisType.BULK_STRING ++ toString (utf8Str v).length
          ++ RedisType.CRLF ++ v ++ RedisType.CRLF) ∧
    serialize_str "123456789" = "$9\r\n123456789\r\n" ∧
    serialize_str (String.singleton (Char.ofNat 233))
      = "$2\r\n" ++ String.singleton (Char.ofNat 233) ++ "\r\n" ∧
    (String.singleton (Char.ofNat 233)).length = 1 := by
  refine ⟨fun v => rfl, by decide, by decide, by decide⟩

/-- C3 counterexample: a non-UTF-8 byte payload makes `serialize_bytes`
panic (`from_utf8(..).unwrap()`), which is an abort, not an `Error` value
returned to the caller. -/
theorem bytes_non_utf8_counterexample :
    utf8Decode? [255] = none ∧
    encode (Value.bytes [255]) = SerResult.panicked ∧
    SerResult.isErrReturn (encode (Value.bytes [255])) = false := by
  decide

/-- C3 (amended): a non-UTF-8 byte payload supplied to `serialize_bytes`
aborts unrecoverably via a panic rather than returning an error value (and
rather than silently truncating); a valid-UTF-8 payload is bulk-string
encoded in full. -/
theorem bytes_non_utf8_panics :
    (∀ bs : List Nat, utf8Decode? bs = none →
        encode (Value.bytes bs) = SerResult.panicked) ∧
    (∀ (bs : List Nat) (cs : List Char), utf8Decode? bs = some cs →
        encode (Value.bytes bs) = SerResult.ok (write_bulk_string (String.mk cs))) := by
  constructor
  · intro bs h
    simp [encode, h]
  · intro bs cs h
    simp [encode, h]

theorem bytes_non_utf8_panics_witness :
    encode (Value.bytes [255]) = SerResult.panicked ∧
    encode (Value.bytes [36]) = SerResult.ok (write_bulk_string (String.mk ['$'])) :=
  ⟨bytes_non_utf8_panics.1 [255] (by decide),
   bytes_non_utf8_panics.2 [36] ['$'] (by decide)⟩

/-- C4 counterexample: the unsigned value 7 round-trips through a 64-bit
signed integer, yet its `serialize_u32` encoding carries the big-number tag
`(`, not the integer tag `:`. -/
theorem big_number_tag_counterexample :
    (7 : Nat) < 2 ^ 63 ∧
    serialize_u32 7 = "(7\r\n" ∧
    firstByte? (serialize_u32 7) = some RedisType.BIG_NUMBER ∧
    RedisType.BIG_NUMBER ≠ RedisType.INTEGER := by
  decide

/-- C4 (amended): `u8` and `u16` inputs always get the integer tag `:`,
while `u32` and `u64` inputs always get the big-number tag `(` — including
every value that fits in signed 64-bit range, so `(` is not reserved for
values that cannot round-trip through `i64`. -/
theorem unsigned_tags :
    (∀ v : Nat, firstByte? (serialize_u8 v) = some RedisType.INTEGER) ∧
    (∀ v : Nat, firstByte? (serialize_u16 v) = some RedisType.INTEGER) ∧
    (∀ v : Nat, firstByte? (serialize_u32 v) = some RedisType.BIG_NUMBER) ∧
    (∀ v : Nat, firstByte? (serialize_u64 v) = some RedisType.BIG_NUMBER) :=
  ⟨fun v => firstByte_tag RedisType.INTEGER (toString (as_i64 v)) RedisType.CRLF,
   fun v => firstByte_tag RedisType.INTEGER (toString (as_i64 v)) RedisType.CRLF,
   fun v => firstByte_tag RedisType.BIG_NUMBER (toString (as_i64 v)) RedisType.CRLF,
   fun v => firstByte_tag RedisType.BIG_NUMBER (Nat.repr v) RedisType.CRLF⟩

/-- C5: `serialize_char` emits carriage return and line feed in bulk-string
form (tag `$`, byte length 1) and every other character in simple-string
form (tag `+`, the character, terminator). -/
theorem char_framing :
    ∀ c : Char, serialize_char c =
      if c = '\r' ∨ c = '\n' then
        String.singleton RedisType.BULK_STRING ++ "1" ++ RedisType.CRLF
          ++ String.singleton c ++ RedisType.CRLF
      else String.singleton RedisType.SIMPLE_STRING ++ String.singleton c ++ RedisType.CRLF := by
  intro c
  by_cases h : c = '\r' ∨ c = '\n'
  · rw [serialize_char, if_pos h, if_pos h]
    rcases h with h | h <;> subst h <;> decide
  · rw [serialize_char, if_neg h, if_neg h]
    rfl

/-- C6: a present optional value encodes exactly as the wrapped value, with
no wrapper in the output; an absent optional encodes as exactly `_\r\n`. -/
theorem option_transparent :
    (∀ v : Value, encode (Value.opt (some v)) = encode v) ∧
    encode (Value.opt none) = SerResult.ok (String.singleton RedisType.NULL ++ RedisType.CRLF) ∧
    encode (Value.opt none) = SerResult.ok "_\r\n" :=
  ⟨fun _ => rfl, rfl, by decide⟩

/-- C7: the unit value encodes as exactly `*0\r\n` (array header, count 0)
and a named unit struct as exactly `%0\r\n` (map header, count 0),
whatever its name; the two differ, and neither is the null encoding. -/
theorem unit_encodings :
    encode Value.unit = SerResult.ok "*0\r\n" ∧
    (∀ name : String, encode (Value.unitStruct name) = SerResult.ok "%0\r\n") ∧
    ("*0\r\n" : String) ≠ "%0\r\n" ∧
    ("*0\r\n" : String) ≠ write_null ∧
    ("%0\r\n" : String) ≠ write_null := by
  refine ⟨by decide, fun name => rfl, by decide, by decide, by decide⟩

/-- C8: a struct field is emitted as its name in bulk-string form followed
by the field's value, while a struct-variant field is emitted as its name
in simple-string form followed by the value; the name always precedes. -/
theorem field_name_framing :
    (∀ (k : String) (v : Value) (fs : List (String × Value)) (a b : String),
        encode v = SerResult.ok a → encodeFields fs = SerResult.ok b →
        encodeFields ((k, v) :: fs) = SerResult.ok (write_bulk_string k ++ a ++ b)) ∧
    (∀ (k : String) (v : Value) (fs : List (String × Value)) (a b : String),
        encode v = SerResult.ok a → encodeVariantFields fs = SerResult.ok b →
        encodeVariantFields ((k, v) :: fs) = SerResult.ok (write_simple_string k ++ a ++ b)) := by
  constructor
  · intro k v fs a b ha hb
    simp [encodeFields, serialize_str, ha, hb, SerResult.append]
  · intro k v fs a b ha hb
    simp [encodeVariantFields, ha, hb, SerResult.append]

theorem field_name_framing_witness :
    encodeFields [("x", Value.bool true)]
      = SerResult.ok (write_bulk_string "x" ++ "#t\r\n" ++ "") ∧
    encodeVariantFields [("x", Value.bool true)]
      = SerResult.ok (write_simple_string "x" ++ "#t\r\n" ++ "") :=
  ⟨field_name_framing.1 "x" (Value.bool true) [] "#t\r\n" "" (by decide) (by decide),
   field_name_framing.2 "x" (Value.bool true) [] "#t\r\n" "" (by decide) (by decide)⟩

/-- C9: every successfully produced byte buffer is valid UTF-8, so the
`String::from_utf8(..).unwrap()` in `to_string` never fails: the decode
succeeds and `to_string` returns the decoded text. -/
theorem buffer_valid_utf8 :
    ∀ (v : Value) (buf : List Nat), serializeBuffer v = some buf →
      ∃ cs : List Char, utf8Decode? buf = some cs ∧ to_string v = some (String.mk cs) := by
  intro v buf h
  unfold serializeBuffer at h
  cases he : encode v with
  | ok s =>
    rw [he] at h
    injection h with h
    subst h
    refine ⟨s.data, utf8Decode_utf8Str s, ?_⟩
    unfold to_string serializeBuffer
    rw [he]
    simp [utf8Decode_utf8Str]
  | err e =>
    rw [he] at h
    cases h
  | panicked =>
    rw [he] at h
    cases h

theorem buffer_valid_utf8_witness :
    ∃ cs : List Char, utf8Decode? [35, 116, 13, 10] = some cs
      ∧ to_string (Value.bool true) = some (String.mk cs) :=
  buffer_valid_utf8 (Value.bool true) [35, 116, 13, 10] (by decide)

/-- C10: for every 32-bit unsigned value, the `as i64` cast performed by
`serialize_u32` is lossless, and the digits emitted after the `(` tag are
exactly the decimal representation of the original value. -/
theorem u32_cast_lossless :
    ∀ v : Nat, v < 2 ^ 32 →
      as_i64 v = (v : Int) ∧
      serialize_u32 v
        = String.singleton RedisType.BIG_NUMBER ++ Nat.repr v ++ RedisType.CRLF := by
  intro v hv
  have h64 : v % 2 ^ 64 = v := Nat.mod_eq_of_lt (by omega)
  have hlt : v % 2 ^ 64 < 2 ^ 63 := by omega
  have hcast : as_i64 v = (v : Int) := by
    rw [as_i64, if_pos hlt, h64]
  refine ⟨hcast, ?_⟩
  rw [serialize_u32, hcast]
  rfl

theorem u32_cast_lossless_witness :
    as_i64 4294967295 = (4294967295 : Int) ∧
    serialize_u32 4294967295
      = String.singleton RedisType.BIG_NUMBER ++ Nat.repr 4294967295 ++ RedisType.CRLF :=
  u32_cast_lossless 4294967295 (by decide)
